import Mathlib

/-!
Verification of the semi-auto browser game client (src/js/index.js and the
networking module) against its natural-language specification.

The relevant program state is shallowly embedded: the roster and the
displayed player cells become Lean lists, the DOM tap counters become
natural numbers, timer handles become booleans, and the event-driven
handlers become explicit step functions on those states.  Machine-level
concerns (DOM rendering, audio) are out of scope of every claim treated
here and are dropped from the embedding.
-/

/-- A rendered player cell of the in-round grid: the DOM element with id
player-(pid), containing a .player-name div and a .tap-counter div.  The
counter text is always a decimal numeral written by the code itself, so it
is embedded as a natural number (parseInt of the text, defaulting to 0). -/
structure PlayerCell where
  pid : String
  name : String
  taps : Nat
  deriving DecidableEq

/-- The forEach loop of endGame (index.js lines 961-970): it threads an
accumulator (winner, maxTaps), starting from (null, 0), and replaces it by
(cell name, cell taps) exactly when the taps of the cell strictly exceed
the current maximum. -/
def scanCells : List PlayerCell → Option String × Nat → Option String × Nat
  | [], acc => acc
  | c :: cs, acc =>
      scanCells cs (if c.taps > acc.2 then (some c.name, c.taps) else acc)

/-- The winner determination of endGame: scan all player cells in display
order starting from winner = null and maxTaps = 0. -/
def endGameScan (cells : List PlayerCell) : Option String × Nat :=
  scanCells cells (none, 0)

/-- Greatest displayed tap count among the cells (0 when there are none). -/
def maxTaps (cells : List PlayerCell) : Nat :=
  cells.foldr (fun c r => max c.taps r) 0

/-- JavaScript string interpolation of a possibly-null winner: null prints
as the string null. -/
def jsStr : Option String → String
  | none => "null"
  | some s => s

/-- The text interpolated into the winner modal of endGame (index.js line
978). -/
def winnerMessage (w : Option String) (m : Nat) : String :=
  jsStr w ++ " wins with " ++ toString m ++ " taps!"

theorem maxTaps_nil : maxTaps [] = 0 := rfl

theorem maxTaps_cons (c : PlayerCell) (cs : List PlayerCell) :
    maxTaps (c :: cs) = max c.taps (maxTaps cs) := rfl

theorem taps_le_maxTaps {c : PlayerCell} {cells : List PlayerCell}
    (h : c ∈ cells) : c.taps ≤ maxTaps cells := by
  induction cells with
  | nil => cases h
  | cons d ds ih =>
      rw [maxTaps_cons]
      rcases List.mem_cons.mp h with h1 | h2
      · subst h1; exact Nat.le_max_left _ _
      · exact le_trans (ih h2) (Nat.le_max_right _ _)

theorem scanCells_snd (cells : List PlayerCell) :
    ∀ w m, (scanCells cells (w, m)).2 = max m (maxTaps cells) := by
  induction cells with
  | nil => intro w m; simp [scanCells, maxTaps]
  | cons c cs ih =>
      intro w m
      simp only [scanCells, maxTaps_cons]
      by_cases h : c.taps > m
      · rw [if_pos h, ih]
        omega
      · rw [if_neg h, ih]
        omega

theorem scanCells_keep (cells : List PlayerCell) :
    ∀ w m, maxTaps cells ≤ m → scanCells cells (w, m) = (w, m) := by
  induction cells with
  | nil => intro w m _; rfl
  | cons c cs ih =>
      intro w m hle
      rw [maxTaps_cons] at hle
      simp only [scanCells]
      rw [if_neg (by omega)]
      exact ih w m (by omega)

theorem scanCells_fst (cells : List PlayerCell) :
    ∀ w m, m < maxTaps cells →
      (scanCells cells (w, m)).1 =
        ((cells.find? fun c => c.taps == maxTaps cells).map PlayerCell.name) := by
  induction cells with
  | nil => intro w m h; rw [maxTaps_nil] at h; omega
  | cons c cs ih =>
      intro w m hm
      rw [maxTaps_cons] at hm
      by_cases hc : c.taps = maxTaps (c :: cs)
      · rw [List.find?_cons_of_pos (p := fun d => d.taps == maxTaps (c :: cs)) cs
          (by simpa using hc)]
        rw [maxTaps_cons] at hc
        simp only [scanCells]
        rw [if_pos (by omega)]
        rw [scanCells_keep cs _ _ (by omega)]
        simp
      · rw [List.find?_cons_of_neg (p := fun d => d.taps == maxTaps (c :: cs)) cs
          (by simpa using hc)]
        rw [maxTaps_cons] at hc
        have hcs : maxTaps (c :: cs) = maxTaps cs := by
          rw [maxTaps_cons]; omega
        have hclt : c.taps < maxTaps cs := by omega
        simp only [scanCells]
        by_cases hup : c.taps > m
        · rw [if_pos hup, hcs, ih (some c.name) c.taps hclt]
        · rw [if_neg hup, hcs, ih w m (by omega)]

/-- C1 (amended).  When some cell shows a positive tap count, the endGame
scan returns maxTaps equal to the greatest displayed count and declares as
winner the first cell in display order whose count equals that maximum; in
particular ties at a positive maximum go to the first such player.  (The
original claim extends this to every tie, but a tie at maximum 0 leaves
winner = null, see the counterexample.) -/
theorem endGame_winner_first_max (cells : List PlayerCell)
    (h : ∃ c ∈ cells, 0 < c.taps) :
    endGameScan cells =
      ((cells.find? fun c => c.taps == maxTaps cells).map PlayerCell.name,
        maxTaps cells) := by
  obtain ⟨c, hc, hpos⟩ := h
  have hM : 0 < maxTaps cells := lt_of_lt_of_le hpos (taps_le_maxTaps hc)
  have h1 := scanCells_fst cells none 0 hM
  have h2 := scanCells_snd cells none 0
  rw [Prod.ext_iff]
  exact ⟨h1, by rw [endGameScan, h2]; omega⟩

/-- The roster of the spec example: players A with 3 taps, B with 5, C
with 5. -/
def cellsABC : List PlayerCell :=
  [⟨"pA", "A", 3⟩, ⟨"pB", "B", 5⟩, ⟨"pC", "C", 5⟩]

/-- C1 witness: on the spec example the winner is B (first player at the
maximum in display order) and maxTaps is 5. -/
theorem endGame_winner_first_max_witness :
    endGameScan cellsABC = (some "B", 5) := by
  have h := endGame_winner_first_max cellsABC ⟨⟨"pA", "A", 3⟩, by decide, by decide⟩
  rw [h]
  rfl

/-- Two players tied at the maximum displayed count, which is 0. -/
def tieZero : List PlayerCell := [⟨"p1", "A", 0⟩, ⟨"p2", "B", 0⟩]

/-- C1 counterexample: on a roster where every player is tied at the
maximum (both show 0 taps), the first player A does not win; the scan
leaves the winner null, refuting the claim that every tie at the maximum
goes to the first player encountered. -/
theorem endGame_tie_at_zero_no_winner :
    (∀ c ∈ tieZero, c.taps = maxTaps tieZero) ∧
      (endGameScan tieZero).1 = none ∧ (endGameScan tieZero).1 ≠ some "A" := by
  decide

/-- C9.  When every displayed tap count is 0 (including an empty grid),
endGame selects no winner: the scan returns winner = null and maxTaps = 0,
and the results modal interpolates the null winner verbatim. -/
theorem endGame_all_zero (cells : List PlayerCell)
    (h : ∀ c ∈ cells, c.taps = 0) :
    endGameScan cells = (none, 0) ∧
      winnerMessage (endGameScan cells).1 (endGameScan cells).2 =
        "null wins with 0 taps!" := by
  have hscan : scanCells cells (none, 0) = (none, 0) := by
    apply scanCells_keep
    induction cells with
    | nil => simp [maxTaps]
    | cons c cs ih =>
        rw [maxTaps_cons]
        have h1 : c.taps = 0 := h c (List.mem_cons_self c cs)
        have h2 : maxTaps cs ≤ 0 := ih (fun d hd => h d (List.mem_cons_of_mem c hd))
        omega
  refine ⟨hscan, ?_⟩
  rw [endGameScan, hscan]
  rfl

/-- A single player cell showing zero taps. -/
def zeroCells : List PlayerCell := [⟨"p1", "A", 0⟩]

/-- C9 witness: with a lone zero-tap player the scan yields winner null
and maxTaps 0, and the modal text names null as the winner. -/
theorem endGame_all_zero_witness :
    endGameScan zeroCells = (none, 0) ∧
      winnerMessage (endGameScan zeroCells).1 (endGameScan zeroCells).2 =
        "null wins with 0 taps!" :=
  endGame_all_zero zeroCells (by decide)

/-- A lobby roster entry (index.js pushes objects with name and skinId). -/
structure Player where
  name : String
  skinId : Nat
  deriving DecidableEq

/-- The host-side start precondition (index.js lines 840-842): the roster
length is compared against 0 with a non-strict inequality. -/
def canStartGame (players : List Player) : Bool :=
  decide (players.length ≥ 0)

/-- The disabled attribute assigned to the start button (index.js sets
disabled to the negation of canStartGame). -/
def startButtonDisabled (players : List Player) : Bool :=
  !(canStartGame players)

/-- C10.  The start precondition is trivially satisfied: canStartGame is
true on every roster, the empty one included, so the start button is never
disabled by player count and a round can begin with zero joined peers. -/
theorem canStartGame_always_true :
    (∀ ps : List Player, canStartGame ps = true ∧ startButtonDisabled ps = false) ∧
      canStartGame [] = true := by
  refine ⟨fun ps => ?_, rfl⟩
  simp [canStartGame, startButtonDisabled]

/-- Events that can reach the round coordinator after the round is
running: the expiry of the host 60000 ms timeout set by startGameTimer
(index.js lines 943-952), and arrival of a gameStateUpdate message whose
payload carries a gameEnded flag (index.js lines 1082-1087). -/
inductive GEvent where
  | timerFire : GEvent
  | gameStateUpdate : Bool → GEvent
  deriving DecidableEq

/-- The round-coordinator state touched by the round-end paths: the
gameStarted flag, whether gameEndTimeout currently refers to a pending
timer, how many times the endGame body has executed (each run appends one
winner modal), and how many updateGameState messages with gameEnded true
were sent. -/
structure RoundState where
  gameStarted : Bool
  timerArmed : Bool
  endGameRuns : Nat
  sentGameEnded : Nat
  deriving DecidableEq

/-- The endGame body (index.js lines 954-990): clears gameStarted, clears
the pending timeout, scans the cells, and appends a winner modal.  It has
no guard against running again. -/
def endGameStep (s : RoundState) : RoundState :=
  { s with gameStarted := false, timerArmed := false,
           endGameRuns := s.endGameRuns + 1 }

/-- One event dispatch.  The timer callback only runs when the timeout is
still pending; it first emits updateGameState with gameEnded true and then
calls endGame.  A gameStateUpdate message calls endGame whenever its
gameEnded field is true, unconditionally. -/
def stepEvent (s : RoundState) : GEvent → RoundState
  | GEvent.timerFire =>
      if s.timerArmed then
        endGameStep { s with timerArmed := false,
                             sentGameEnded := s.sentGameEnded + 1 }
      else s
  | GEvent.gameStateUpdate b => if b then endGameStep s else s

/-- Sequential dispatch of a trace of events, in arrival order. -/
def processEvents (es : List GEvent) (s : RoundState) : RoundState :=
  es.foldl stepEvent s

/-- The number of events in a trace that actually trigger the endGame
body, given whether the host timer is armed at the start of the trace: a
timer expiry while armed (which disarms it) and every gameStateUpdate
carrying gameEnded true. -/
def effectiveTriggers : List GEvent → Bool → Nat
  | [], _ => 0
  | GEvent.timerFire :: rest, armed =>
      if armed then 1 + effectiveTriggers rest false
      else effectiveTriggers rest armed
  | GEvent.gameStateUpdate b :: rest, armed =>
      if b then 1 + effectiveTriggers rest false
      else effectiveTriggers rest armed

theorem processEvents_sent_le (es : List GEvent) :
    ∀ s : RoundState,
      (processEvents es s).sentGameEnded ≤
        s.sentGameEnded + (if s.timerArmed then 1 else 0) := by
  induction es with
  | nil => intro s; simp [processEvents]
  | cons e rest ih =>
      intro s
      have hstep : processEvents (e :: rest) s = processEvents rest (stepEvent s e) := rfl
      rw [hstep]
      cases e with
      | timerFire =>
          by_cases ha : s.timerArmed
          · have := ih (endGameStep
              { s with timerArmed := false, sentGameEnded := s.sentGameEnded + 1 })
            simp only [stepEvent, if_pos ha]
            simp [endGameStep] at this ⊢
            omega
          · have := ih s
            simp only [stepEvent, if_neg ha]
            simpa [if_neg ha] using this
      | gameStateUpdate b =>
          cases b with
          | true =>
              have := ih (endGameStep s)
              simp only [stepEvent, if_pos rfl]
              simp [endGameStep] at this ⊢
              split <;> omega
          | false =>
              have := ih s
              simpa [stepEvent] using this

/-- C2 (amended).  Along any trace of round events: the endGame body runs
once for every effective trigger, that is, once for the host timer expiry
(which can fire at most once, since firing disarms it) and once for every
received gameStateUpdate with gameEnded true; and at most one
updateGameState with gameEnded true is sent.  Exactly-once round end
therefore holds only when exactly one trigger occurs; duplicate
gameStateUpdate deliveries each rerun endGame. -/
theorem endGame_runs_count (es : List GEvent) (s : RoundState) :
    (processEvents es s).endGameRuns =
        s.endGameRuns + effectiveTriggers es s.timerArmed ∧
      (processEvents es s).sentGameEnded ≤ s.sentGameEnded + 1 := by
  constructor
  · induction es generalizing s with
    | nil => simp [processEvents, effectiveTriggers]
    | cons e rest ih =>
        have hstep : processEvents (e :: rest) s = processEvents rest (stepEvent s e) := rfl
        rw [hstep]
        cases e with
        | timerFire =>
            by_cases ha : s.timerArmed
            · rw [ih]
              simp [stepEvent, endGameStep, effectiveTriggers, if_pos ha]
              omega
            · rw [ih]
              have ha' : s.timerArmed = false := by simpa using ha
              simp [stepEvent, endGameStep, effectiveTriggers, ha']
        | gameStateUpdate b =>
            cases b with
            | true =>
                rw [ih]
                simp [stepEvent, endGameStep, effectiveTriggers]
                omega
            | false =>
                rw [ih]
                simp [stepEvent, effectiveTriggers]
  · have h := processEvents_sent_le es s
    split at h <;> omega

/-- A non-host client while the round runs: no local timer armed. -/
def clientRunning : RoundState :=
  { gameStarted := true, timerArmed := false, endGameRuns := 0, sentGameEnded := 0 }

/-- C2 counterexample: a client that receives two gameStateUpdate messages
with gameEnded true executes the endGame body twice, not exactly once as
the claim states. -/
theorem endGame_not_exactly_once :
    (processEvents [GEvent.gameStateUpdate true, GEvent.gameStateUpdate true]
        clientRunning).endGameRuns = 2 ∧
      (processEvents [GEvent.gameStateUpdate true, GEvent.gameStateUpdate true]
        clientRunning).endGameRuns ≠ 1 := by
  decide

/-- The client-side game state touched by resetGameState (index.js lines
992-1003): the lobby roster, the gameStarting and gameStarted flags,
whether the round timeout is pending, and the rendered player cells whose
tap counters hold the displayed counts. -/
structure ClientState where
  players : List Player
  gameStarting : Bool
  gameStarted : Bool
  gameEndTimeout : Bool
  gridCells : List PlayerCell
  deriving DecidableEq

/-- The resetGameState body: it empties the roster, re-renders the lobby
list, clears gameStarting, re-enables the suit squares and fades the
music.  It does not touch gameStarted, the pending gameEndTimeout, or the
player cells carrying the tap counters. -/
def resetGameState (s : ClientState) : ClientState :=
  { s with players := [], gameStarting := false }

/-- A host mid-round when the roomClosed event arrives: one joined player,
round running, the 60 s timeout pending, one cell showing 7 taps. -/
def midRoundState : ClientState :=
  { players := [⟨"A", 1⟩], gameStarting := true, gameStarted := true,
    gameEndTimeout := true, gridCells := [⟨"pA", "A", 7⟩] }

/-- C3 (code bug).  Evaluating resetGameState at a mid-round state: the
roster is emptied as specified, but the pending round timer is left armed
(it will still fire and run endGame after the room is gone) and the
displayed tap counter survives, contradicting the requirement that room
reset cancels the round timer and clears all tap counts. -/
theorem resetGameState_leaves_timer :
    (resetGameState midRoundState).players = [] ∧
      (resetGameState midRoundState).gameStarting = false ∧
      (resetGameState midRoundState).gameEndTimeout = true ∧
      (resetGameState midRoundState).gameStarted = true ∧
      (resetGameState midRoundState).gridCells = [⟨"pA", "A", 7⟩] := by
  decide

/-- The onTapEvent handler body, showTapEffect (index.js lines 1036-1057):
look up the cell with id player-(playerId); when it exists, restart the
flash animation and sound (the visual feedback), read the tap counter and
write back the value plus one.  The boolean records whether the feedback
fired (it fires exactly when the cell was found). -/
def showTapEffect (pid : String) : List PlayerCell → List PlayerCell × Bool
  | [] => ([], false)
  | c :: cs =>
      if c.pid == pid then ({ c with taps := c.taps + 1 } :: cs, true)
      else
        let r := showTapEffect pid cs
        (c :: r.1, r.2)

/-- Dispatch of a sequence of received tapEvent messages in arrival order,
counting how many of them fired the visual feedback. -/
def processTapEvents : List String → List PlayerCell → List PlayerCell × Nat
  | [], cells => (cells, 0)
  | p :: ps, cells =>
      let r := showTapEffect p cells
      let r2 := processTapEvents ps r.1
      (r2.1, (if r.2 then 1 else 0) + r2.2)

theorem showTapEffect_find (p : String) (cells : List PlayerCell)
    (c : PlayerCell) (h : cells.find? (fun d => d.pid == p) = some c) :
    (showTapEffect p cells).2 = true ∧
      ((showTapEffect p cells).1.find? fun d => d.pid == p) =
        some { c with taps := c.taps + 1 } := by
  induction cells with
  | nil => simp at h
  | cons d ds ih =>
      by_cases hd : (d.pid == p) = true
      · rw [List.find?_cons_of_pos (p := fun e => e.pid == p) ds hd] at h
        injection h with h
        subst h
        have hshow : showTapEffect p (d :: ds) =
            ({ d with taps := d.taps + 1 } :: ds, true) := by
          simp [showTapEffect, hd]
        rw [hshow]
        refine ⟨rfl, ?_⟩
        have hd2 : (({ d with taps := d.taps + 1 } : PlayerCell).pid == p) = true := hd
        exact List.find?_cons_of_pos (p := fun e => e.pid == p) ds hd2
      · rw [List.find?_cons_of_neg (p := fun e => e.pid == p) ds hd] at h
        obtain ⟨h1, h2⟩ := ih h
        have hshow : showTapEffect p (d :: ds) =
            (d :: (showTapEffect p ds).1, (showTapEffect p ds).2) := by
          simp [showTapEffect, hd]
        rw [hshow]
        refine ⟨h1, ?_⟩
        show List.find? (fun e => e.pid == p) (d :: (showTapEffect p ds).1) =
          some { c with taps := c.taps + 1 }
        rw [List.find?_cons_of_neg (p := fun e : PlayerCell => e.pid == p)
          (showTapEffect p ds).1 hd]
        exact h2

/-- C5.  Tap counting is non-deduplicating: when a cell for player p is
displayed, processing n received tapEvent messages for p (duplicates and
echoes included) leaves the cell with its counter increased by exactly n,
and the visual feedback fires exactly n times, once per event. -/
theorem tap_events_not_deduplicated (n : Nat) (p : String)
    (c : PlayerCell) (cells : List PlayerCell)
    (h : cells.find? (fun d => d.pid == p) = some c) :
    ((processTapEvents (List.replicate n p) cells).1.find? fun d => d.pid == p) =
        some { c with taps := c.taps + n } ∧
      (processTapEvents (List.replicate n p) cells).2 = n := by
  induction n generalizing c cells with
  | zero => exact ⟨h, rfl⟩
  | succ k ih =>
      obtain ⟨hflash, hfind⟩ := showTapEffect_find p cells c h
      obtain ⟨ih1, ih2⟩ := ih { c with taps := c.taps + 1 } (showTapEffect p cells).1 hfind
      simp only [List.replicate, processTapEvents]
      constructor
      · rw [ih1]
        have : c.taps + 1 + k = c.taps + (k + 1) := by omega
        simp [this]
      · rw [ih2, hflash]
        show 1 + k = k + 1
        omega

/-- A grid with one cell for player id p1 that already shows 2 taps. -/
def tapCells : List PlayerCell := [⟨"p1", "A", 2⟩]

/-- C5 witness: three duplicate tapEvent messages for p1 raise the counter
from 2 to 5 and fire the feedback three times. -/
theorem tap_events_not_deduplicated_witness :
    ((processTapEvents (List.replicate 3 "p1") tapCells).1.find? fun d => d.pid == "p1") =
        some ⟨"p1", "A", 5⟩ ∧
      (processTapEvents (List.replicate 3 "p1") tapCells).2 = 3 := by
  have h := tap_events_not_deduplicated 3 "p1" ⟨"p1", "A", 2⟩ tapCells (by rfl)
  simpa using h

/-- The room code alphabet (index.js line 652): capital letters with the
visually ambiguous I and O absent (V is also absent). -/
def lettersList : List Char := "ABCDEFGHJKLMNPQRSTUWXYZ".toList

/-- The denylist of offensive four-letter sequences (index.js line 653). -/
def badWords : List (List Char) :=
  ["FUCK", "FVCK", "SHIT", "DAMN", "CUNT", "DICK", "COCK", "TWAT", "CRAP",
    "STFU"].map String.toList

/-- One random character draw: charAt of the alphabet at
Math.floor(Math.random() * letters.length), which is exactly an index in
[0, 23); an arbitrary natural reduced modulo 23 ranges over the same
indices. -/
def pickChar (r : Nat) : Char :=
  lettersList.get ⟨r % 23, by
    have h23 : lettersList.length = 23 := by decide
    rw [h23]
    exact Nat.mod_lt _ (by decide)⟩

/-- One iteration of the generation loop: four draws concatenated. -/
def attemptCode (r1 r2 r3 r4 : Nat) : List Char :=
  [pickChar r1, pickChar r2, pickChar r3, pickChar r4]

/-- The hay.includes(needle) substring test of JavaScript strings. -/
def jsIncludes (hay needle : List Char) : Bool :=
  decide (needle <:+: hay)

/-- The generateRoomCode loop (index.js lines 651-661): repeatedly draw a
four-character candidate and accept it unless some denylisted word occurs
in it.  The JavaScript loop runs until acceptance on a boundless random
stream; here the stream of per-iteration draws is passed explicitly and
none is returned only when the supplied stream is exhausted before an
acceptable candidate appears. -/
def generateRoomCode : List (Nat × Nat × Nat × Nat) → Option (List Char)
  | [] => none
  | (r1, r2, r3, r4) :: rest =>
      let code := attemptCode r1 r2 r3 r4
      if badWords.any (fun w => jsIncludes code w) then generateRoomCode rest
      else some code

/-- C7.  Every code returned by generateRoomCode has length exactly 4,
consists only of characters of the restricted alphabet (which contains
neither I nor O), and contains no denylisted word as a substring. -/
theorem generateRoomCode_valid (draws : List (Nat × Nat × Nat × Nat))
    (code : List Char) (h : generateRoomCode draws = some code) :
    code.length = 4 ∧ (∀ ch ∈ code, ch ∈ lettersList) ∧
      ('I' ∉ lettersList ∧ 'O' ∉ lettersList) ∧
      ∀ w ∈ badWords, ¬ (w <:+: code) := by
  induction draws with
  | nil => simp [generateRoomCode] at h
  | cons q rest ih =>
      obtain ⟨r1, r2, r3, r4⟩ := q
      simp only [generateRoomCode] at h
      by_cases hbad : badWords.any (fun w => jsIncludes (attemptCode r1 r2 r3 r4) w) = true
      · rw [if_pos hbad] at h
        exact ih h
      · rw [if_neg hbad] at h
        injection h with h
        subst h
        refine ⟨rfl, ?_, by decide, ?_⟩
        · intro ch hch
          simp only [attemptCode, List.mem_cons] at hch
          rcases hch with h1 | h1 | h1 | h1 | h1
          all_goals first
            | (subst h1; exact List.get_mem _ _ _)
            | cases h1
        · intro w hw hinf
          apply hbad
          rw [List.any_eq_true]
          exact ⟨w, hw, by simpa [jsIncludes] using hinf⟩

/-- C7 witness: the all-zero draw stream yields the code AAAA, which has
length 4, uses only alphabet letters and contains no denylisted word. -/
theorem generateRoomCode_valid_witness :
    "AAAA".toList.length = 4 ∧ (∀ ch ∈ "AAAA".toList, ch ∈ lettersList) ∧
      ('I' ∉ lettersList ∧ 'O' ∉ lettersList) ∧
      ∀ w ∈ badWords, ¬ (w <:+: "AAAA".toList) :=
  generateRoomCode_valid [(0, 0, 0, 0)] "AAAA".toList (by decide)

/-- The payload of the create-room message emitted by performCreateRoom
(networking module lines 114-140): roomCode, hostId taken from the socket
id, and hostSkin.  A JavaScript argument can be absent (undefined), which
is embedded as none. -/
structure CreateRoomPayload where
  roomCode : String
  hostId : String
  hostSkin : Option Nat
  deriving DecidableEq

/-- The performCreateRoom body, restricted to the emitted payload: it
forwards its roomCode and hostSkin parameters and the current socket id
verbatim into the create-room message. -/
def performCreateRoom (socketId : String) (roomCode : String)
    (hostSkin : Option Nat) : CreateRoomPayload :=
  { roomCode := roomCode, hostId := socketId, hostSkin := hostSkin }

/-- The createRoom entry point (networking module lines 103-112).  Its
source signature declares the single parameter roomCode; the call site in
index.js passes a second argument (the host skin), which JavaScript
silently discards, and performCreateRoom is then invoked with only
roomCode, so its hostSkin parameter is undefined.  The connected branch is
modelled; the lazy-connect branch runs the same performCreateRoom call
after the connect event. -/
def createRoom (socketId : String) (roomCode : String)
    (_hostSkinArg : Nat) : CreateRoomPayload :=
  performCreateRoom socketId roomCode none

/-- C4 (code bug).  Evaluating createRoom at a concrete call: the emitted
create-room payload carries the caller-chosen room code and the connection
id, but its hostSkin field is undefined rather than the skin the caller
passed, because createRoom drops its second argument on the way to
performCreateRoom. -/
theorem createRoom_drops_hostSkin :
    createRoom "s1" "ABCD" 5 =
        { roomCode := "ABCD", hostId := "s1", hostSkin := none } ∧
      (createRoom "s1" "ABCD" 5).hostSkin ≠ some 5 := by
  decide

/-- The transport-session state touched by the heartbeat logic of
connectToServer (networking module lines 59-101): whether the socket is
connected, whether the pingInterval global currently refers to a live
interval timer, how many interval timers are live at all, the timestamp of
the last received pong, and how many reconnect attempts have been
scheduled via setTimeout. -/
structure Session where
  connected : Bool
  heartbeatArmed : Bool
  liveTimers : Nat
  lastPong : Nat
  reconnectsScheduled : Nat
  deriving DecidableEq

/-- One firing of the 25-second heartbeat interval callback (lines
85-96).  A cleared interval no longer fires, so the callback runs only
with the heartbeat armed; it does nothing unless the socket is connected.
When more than 60000 ms have passed since the last pong it clears the
interval, disconnects the socket, and schedules exactly one reconnect
attempt after a one-second delay. -/
def heartbeatTick (now : Nat) (s : Session) : Session :=
  if s.heartbeatArmed && s.connected then
    if 60000 < now - s.lastPong then
      { s with heartbeatArmed := false, liveTimers := s.liveTimers - 1,
               connected := false,
               reconnectsScheduled := s.reconnectsScheduled + 1 }
    else s
  else s

/-- The connect handler (lines 75-100): reset the pong timestamp, clear
any existing ping interval, then start a fresh one. -/
def onConnect (now : Nat) (s : Session) : Session :=
  let s1 :=
    if s.heartbeatArmed then
      { s with heartbeatArmed := false, liveTimers := s.liveTimers - 1 }
    else s
  { s1 with connected := true, lastPong := now, heartbeatArmed := true,
            liveTimers := s1.liveTimers + 1 }

/-- C6.  When the heartbeat fires on a connected session whose last pong
is more than 60 seconds old, the session cancels the heartbeat interval
(leaving no live timer), forcibly disconnects, and schedules exactly one
reconnect attempt; and the connect handler always clears any previous
interval before starting the new one, so a session holding at most one
live heartbeat timer still holds exactly one after reconnecting. -/
theorem heartbeat_death_single_recovery (now : Nat) (s : Session)
    (hA : s.heartbeatArmed = true) (hC : s.connected = true)
    (hT : 60000 < now - s.lastPong) (hL : s.liveTimers = 1) :
    (heartbeatTick now s).heartbeatArmed = false ∧
      (heartbeatTick now s).connected = false ∧
      (heartbeatTick now s).liveTimers = 0 ∧
      (heartbeatTick now s).reconnectsScheduled = s.reconnectsScheduled + 1 ∧
      (onConnect now s).liveTimers = 1 := by
  have hcond : (s.heartbeatArmed && s.connected) = true := by
    rw [hA, hC]; rfl
  have htick : heartbeatTick now s =
      { s with heartbeatArmed := false, liveTimers := s.liveTimers - 1,
               connected := false,
               reconnectsScheduled := s.reconnectsScheduled + 1 } := by
    rw [heartbeatTick, if_pos hcond, if_pos hT]
  have hconn : onConnect now s =
      { s with heartbeatArmed := true, liveTimers := s.liveTimers - 1 + 1,
               connected := true, lastPong := now } := by
    rw [onConnect]
    simp only [if_pos hA]
  rw [htick, hconn, hL]
  exact ⟨rfl, rfl, rfl, rfl, rfl⟩

/-- A connected session with one live heartbeat timer whose last pong is
stale by 70 seconds when the interval fires. -/
def deadSession : Session :=
  { connected := true, heartbeatArmed := true, liveTimers := 1,
    lastPong := 0, reconnectsScheduled := 0 }

/-- C6 witness: firing the heartbeat at time 70000 on the stale session
cancels the timer, disconnects and schedules exactly one reconnect, and
reconnecting restores exactly one live timer. -/
theorem heartbeat_death_single_recovery_witness :
    (heartbeatTick 70000 deadSession).heartbeatArmed = false ∧
      (heartbeatTick 70000 deadSession).connected = false ∧
      (heartbeatTick 70000 deadSession).liveTimers = 0 ∧
      (heartbeatTick 70000 deadSession).reconnectsScheduled =
        deadSession.reconnectsScheduled + 1 ∧
      (onConnect 70000 deadSession).liveTimers = 1 :=
  heartbeat_death_single_recovery 70000 deadSession rfl rfl (by decide) rfl

/-- The payload of an updatePlayerInfo call: the old name and the optional
new nickname and new skin id. -/
structure PlayerInfoData where
  oldName : String
  newNickname : Option String
  newSkinId : Option Nat
  deriving DecidableEq

/-- The network-manager state visible to updatePlayerInfo: whether the
socket object exists, whether it is connected, and a queue of actions
pending replay (the lazy-connect machinery stores queued actions; an
update is never placed there). -/
structure NetState where
  socketExists : Bool
  socketConnected : Bool
  pendingQueue : List PlayerInfoData
  deriving DecidableEq

/-- The observable effects of one updatePlayerInfo call: the wire messages
emitted, the console log lines, and the user-visible error messages
shown. -/
structure UpdateOutcome where
  emitted : List PlayerInfoData
  logs : List String
  userErrorsShown : List String
  deriving DecidableEq

/-- The updatePlayerInfo body (networking module lines 228-235): always
log the attempt; when the socket exists and is connected, emit the
updatePlayerInfo message; otherwise log an error to the console and do
nothing else - no queueing, no user-visible error, no state change. -/
def updatePlayerInfo (s : NetState) (d : PlayerInfoData) :
    NetState × UpdateOutcome :=
  if s.socketExists && s.socketConnected then
    (s, { emitted := [d],
          logs := ["NetworkManager: Sending player info update"],
          userErrorsShown := [] })
  else
    (s, { emitted := [],
          logs := ["NetworkManager: Sending player info update",
                   "NetworkManager: Cannot send update - socket not connected"],
          userErrorsShown := [] })

/-- C8.  Calling updatePlayerInfo while disconnected (socket absent or not
connected) leaves the state untouched, emits no wire message, queues
nothing for replay, shows no user-visible error, and logs the failure to
the console only. -/
theorem updatePlayerInfo_disconnected (s : NetState) (d : PlayerInfoData)
    (h : s.socketExists = false ∨ s.socketConnected = false) :
    (updatePlayerInfo s d).1 = s ∧
      (updatePlayerInfo s d).2.emitted = [] ∧
      (updatePlayerInfo s d).1.pendingQueue = s.pendingQueue ∧
      (updatePlayerInfo s d).2.userErrorsShown = [] ∧
      "NetworkManager: Cannot send update - socket not connected" ∈
        (updatePlayerInfo s d).2.logs := by
  have hcond : (s.socketExists && s.socketConnected) = false := by
    rcases h with h | h <;> rw [h] <;> simp
  rw [updatePlayerInfo, if_neg (by rw [hcond]; simp)]
  refine ⟨rfl, rfl, rfl, rfl, ?_⟩
  simp

/-- A disconnected network-manager state with an empty pending queue. -/
def offlineState : NetState :=
  { socketExists := true, socketConnected := false, pendingQueue := [] }

/-- C8 witness: an update attempted on a disconnected socket changes
nothing, emits nothing, queues nothing, shows nothing, and logs the
console error. -/
theorem updatePlayerInfo_disconnected_witness :
    (updatePlayerInfo offlineState ⟨"old", some "new", none⟩).1 = offlineState ∧
      (updatePlayerInfo offlineState ⟨"old", some "new", none⟩).2.emitted = [] ∧
      (updatePlayerInfo offlineState ⟨"old", some "new", none⟩).1.pendingQueue =
        offlineState.pendingQueue ∧
      (updatePlayerInfo offlineState ⟨"old", some "new", none⟩).2.userErrorsShown = [] ∧
      "NetworkManager: Cannot send update - socket not connected" ∈
        (updatePlayerInfo offlineState ⟨"old", some "new", none⟩).2.logs :=
  updatePlayerInfo_disconnected offlineState ⟨"old", some "new", none⟩ (Or.inr rfl)
